import Mathlib

/-!
Shallow embedding of the `mcp_doi2bib` repository (files
`doi-to-bibtex-mcp.py` and `server-http.py`).

Strings are modelled as `List Char`.  Python `str.strip()` is modelled by
`trim` (drop whitespace from both ends), `str.startswith` by
`List.isPrefixOf`, `s.lower()` by `List.map Char.toLower`, and slicing
`s[n:]` by `List.drop n`.  The HTTP world (httpx) is modelled by an
explicit one-shot outcome value: each call of the fetcher consumes exactly
one `HttpOutcome`, which captures the single GET request of the code (no
retry exists in any branch).
-/

/-- Convert a Lean string literal to the `List Char` model used throughout. -/
def str (s : String) : List Char := s.data

/-- A list consisting only of whitespace characters. -/
def wsOnly (l : List Char) : Prop := ∀ c ∈ l, c.isWhitespace = true

instance (l : List Char) : Decidable (wsOnly l) := List.decidableBAll _ l

/-- Drop leading whitespace, as the left half of Python `str.strip()`. -/
def ltrim (l : List Char) : List Char := l.dropWhile Char.isWhitespace

/-- Drop trailing whitespace, as the right half of Python `str.strip()`. -/
def rtrim (l : List Char) : List Char :=
  (l.reverse.dropWhile Char.isWhitespace).reverse

/-- Python `str.strip()`: remove leading and trailing whitespace. -/
def trim (l : List Char) : List Char := rtrim (ltrim l)

/- General lemmas about `dropWhile`/`trim` used by the development. -/

theorem dropWhile_append_of_forall {p : Char → Bool} {a : List Char}
    (b : List Char) (h : ∀ c ∈ a, p c = true) :
    (a ++ b).dropWhile p = b.dropWhile p := by
  induction a with
  | nil => rfl
  | cons c t ih =>
    have hc : p c = true := h c (List.mem_cons_self c t)
    simp only [List.cons_append, List.dropWhile_cons, hc, if_true]
    exact ih (fun x hx => h x (List.mem_cons_of_mem c hx))

theorem dropWhile_cons_of_neg {p : Char → Bool} {c : Char}
    (t : List Char) (h : p c = false) : (c :: t).dropWhile p = c :: t := by
  simp [List.dropWhile_cons, h]

theorem dropWhile_append_of_ne_nil {p : Char → Bool} {a : List Char}
    (b : List Char) (h : a.dropWhile p ≠ []) :
    (a ++ b).dropWhile p = a.dropWhile p ++ b := by
  induction a with
  | nil => simp at h
  | cons c t ih =>
    by_cases hc : p c = true
    · simp only [List.cons_append, List.dropWhile_cons, hc, if_true]
      simp only [List.dropWhile_cons, hc, if_true] at h
      exact ih h
    · have hc' : p c = false := by simpa using hc
      simp [List.dropWhile_cons, hc']

theorem dropWhile_head_false {p : Char → Bool} {l : List Char} {c : Char}
    {t : List Char} (h : l.dropWhile p = c :: t) : p c = false := by
  induction l with
  | nil => simp at h
  | cons a l ih =>
    by_cases ha : p a = true
    · simp only [List.dropWhile_cons, ha, if_true] at h
      exact ih h
    · have ha' : p a = false := by simpa using ha
      rw [dropWhile_cons_of_neg l ha'] at h
      cases h
      exact ha'

theorem dropWhile_idem {p : Char → Bool} (l : List Char) :
    (l.dropWhile p).dropWhile p = l.dropWhile p := by
  cases hd : l.dropWhile p with
  | nil => rfl
  | cons c t => exact dropWhile_cons_of_neg t (dropWhile_head_false hd)

theorem length_dropWhile_le {p : Char → Bool} (l : List Char) :
    (l.dropWhile p).length ≤ l.length := by
  induction l with
  | nil => simp
  | cons c t ih =>
    by_cases hc : p c = true
    · rw [List.dropWhile_cons, if_pos hc]
      exact le_trans ih (by simp)
    · have hc' : p c = false := by simpa using hc
      rw [dropWhile_cons_of_neg t hc']

theorem dropWhile_eq_self_of_length {p : Char → Bool} {l : List Char}
    (h : (l.dropWhile p).length = l.length) : l.dropWhile p = l := by
  induction l with
  | nil => rfl
  | cons c t ih =>
    by_cases hc : p c = true
    · exfalso
      rw [List.dropWhile_cons, if_pos hc, List.length_cons] at h
      have := length_dropWhile_le (p := p) t
      omega
    · have hc' : p c = false := by simpa using hc
      exact dropWhile_cons_of_neg t hc'

theorem ltrim_ws_append {a : List Char} (b : List Char) (h : wsOnly a) :
    ltrim (a ++ b) = ltrim b :=
  dropWhile_append_of_forall b h

theorem rtrim_append_ws {b : List Char} (a : List Char) (h : wsOnly b) :
    rtrim (a ++ b) = rtrim a := by
  unfold rtrim
  rw [List.reverse_append]
  rw [dropWhile_append_of_forall a.reverse (fun c hc => h c (List.mem_reverse.mp hc))]

theorem trim_ws_both {a b : List Char} (x : List Char)
    (ha : wsOnly a) (hb : wsOnly b) : trim (a ++ x ++ b) = trim x := by
  unfold trim
  rw [List.append_assoc, ltrim_ws_append (x ++ b) ha]
  by_cases hx : ltrim x = []
  · have hxw : wsOnly x := by
      intro c hc
      exact List.dropWhile_eq_nil_iff.mp hx c hc
    have : ltrim (x ++ b) = [] := by
      apply List.dropWhile_eq_nil_iff.mpr
      intro c hc
      rcases List.mem_append.mp hc with h | h
      · exact hxw c h
      · exact hb c h
    rw [this, hx]
  · unfold ltrim at hx ⊢
    rw [dropWhile_append_of_ne_nil b hx]
    exact rtrim_append_ws _ hb

theorem trim_fixpoint_parts {s : List Char} (h : trim s = s) :
    ltrim s = s ∧ s.reverse.dropWhile Char.isWhitespace = s.reverse := by
  have h1 : (ltrim s).length ≤ s.length := length_dropWhile_le s
  have h2 : (trim s).length ≤ (ltrim s).length := by
    unfold trim rtrim
    rw [List.length_reverse]
    calc ((ltrim s).reverse.dropWhile Char.isWhitespace).length
        ≤ (ltrim s).reverse.length := length_dropWhile_le _
      _ = (ltrim s).length := List.length_reverse _
  rw [h] at h2
  have hlen : (ltrim s).length = s.length := le_antisymm h1 h2
  have hl : ltrim s = s := dropWhile_eq_self_of_length hlen
  refine ⟨hl, ?_⟩
  have hr : rtrim s = s := by
    have := h
    unfold trim at this
    rwa [hl] at this
  unfold rtrim at hr
  have := congrArg List.reverse hr
  rwa [List.reverse_reverse] at this

theorem trim_eq_of_parts {s : List Char} (h1 : ltrim s = s)
    (h2 : s.reverse.dropWhile Char.isWhitespace = s.reverse) : trim s = s := by
  unfold trim rtrim
  rw [h1, h2, List.reverse_reverse]

/-- If a block `p` is non-empty, keeps its own edges free of whitespace, and
`s` is already trimmed, then `p ++ s` is trimmed. -/
theorem trim_append_of {p : List Char} (s : List Char)
    (h1 : ltrim p = p)
    (h2 : p.reverse.dropWhile Char.isWhitespace = p.reverse)
    (h3 : p ≠ []) (hs : trim s = s) : trim (p ++ s) = p ++ s := by
  obtain ⟨hs1, hs2⟩ := trim_fixpoint_parts hs
  apply trim_eq_of_parts
  · cases p with
    | nil => exact absurd rfl h3
    | cons a t =>
      have ha : Char.isWhitespace a = false := by
        have : (a :: t).dropWhile Char.isWhitespace = a :: t := h1
        exact dropWhile_head_false this
      rw [List.cons_append]
      exact dropWhile_cons_of_neg (t ++ s) ha
  · rw [List.reverse_append]
    cases hsr : s.reverse with
    | nil =>
      simpa using h2
    | cons e r =>
      rw [hsr] at hs2
      have he : Char.isWhitespace e = false := dropWhile_head_false hs2
      rw [List.cons_append]
      rw [dropWhile_cons_of_neg (r ++ p.reverse) he]

theorem dropWhile_concat_struct {p : Char → Bool} (w : List Char) (a : Char) :
    (w ++ [a]).dropWhile p = [] ∨
      ∃ w', (w ++ [a]).dropWhile p = w' ++ [a] := by
  induction w with
  | nil =>
    by_cases ha : p a = true
    · left
      simp [List.dropWhile_cons, ha]
    · right
      exact ⟨[], by simp [List.dropWhile_cons, ha]⟩
  | cons c t ih =>
    by_cases hc : p c = true
    · simpa [List.dropWhile_cons, hc] using ih
    · right
      have hc' : p c = false := by simpa using hc
      exact ⟨c :: t, by rw [List.cons_append, dropWhile_cons_of_neg (t ++ [a]) hc']⟩

theorem trim_idem (l : List Char) : trim (trim l) = trim l := by
  apply trim_eq_of_parts
  · -- the head of `trim l` (if any) is the last surviving character of
    -- `(ltrim l).reverse` after its whitespace head was dropped
    unfold trim rtrim ltrim
    rcases List.eq_nil_or_concat (l.dropWhile Char.isWhitespace).reverse
      with hnil | ⟨w, a, hw⟩
    · rw [hnil]
      rfl
    · rw [List.concat_eq_append] at hw
      have hy : l.dropWhile Char.isWhitespace = a :: w.reverse := by
        have := congrArg List.reverse hw
        simpa using this
      have ha : Char.isWhitespace a = false := dropWhile_head_false hy
      rw [hw]
      rcases dropWhile_concat_struct (p := Char.isWhitespace) w a with hz | ⟨w', hz⟩
      · rw [hz]
        rfl
      · rw [hz, List.reverse_append]
        simp only [List.reverse_singleton, List.singleton_append]
        exact dropWhile_cons_of_neg w'.reverse ha
  · unfold trim rtrim
    rw [List.reverse_reverse]
    exact dropWhile_idem _

/-!
Shared model types for the external HTTP world (httpx) and the MCP result
shapes.  One `HttpOutcome` value stands for the single GET request a call
of the fetcher issues: either the final HTTP response (after redirects
were followed) or a transport-level exception with its description.
-/

/-- Outcome of the single outbound GET issued by the fetcher. -/
inductive HttpOutcome where
  | response (status : Nat) (body : List Char)
  | transport (errMsg : List Char)
deriving DecidableEq

/-- Parameters of the outbound request the fetcher constructs. -/
structure HttpRequest where
  httpMethod : List Char
  url : List Char
  acceptHeader : List Char
  followRedirects : Bool
  timeout : Nat
deriving DecidableEq

/-- Result of the fetcher: the body text, or the message of the raised
`ValueError`. -/
inductive FetchResult where
  | ok (body : List Char)
  | error (msg : List Char)
deriving DecidableEq

/-- A `TextContent` item of the MCP result. -/
structure TextContent where
  type : List Char
  text : List Char
deriving DecidableEq

/-- Result of `handle_call_tool`: a content list, or a raised exception
propagated to the protocol layer. -/
inductive CallResult where
  | raised (msg : List Char)
  | content (items : List TextContent)
deriving DecidableEq

/-- Argument mapping of a tool invocation (a Python dict). -/
abbrev Args : Type := List (List Char × List Char)

/-- Python `"doi" in arguments`. -/
def hasKey (args : Args) (k : List Char) : Bool :=
  args.any (fun kv => kv.1 == k)

/-- Python `arguments["doi"]` for a key that is present. -/
def getArg (args : Args) (k : List Char) : List Char :=
  ((args.find? (fun kv => kv.1 == k)).map Prod.snd).getD []

/-- The static tool descriptor returned by the enumerate-tools operation. -/
structure Tool where
  name : List Char
  description : List Char
  inputSchemaRequired : List (List Char)
deriving DecidableEq

namespace DoiToBibtex

/-- Lines 42-50 of `doi-to-bibtex-mcp.py`: the elif chain removing one URL
form (checked in order, case-sensitively) from the already trimmed input. -/
def stripUrl (doi : List Char) : List Char :=
  if (str "https://doi.org/").isPrefixOf doi then doi.drop 16
  else if (str "http://doi.org/").isPrefixOf doi then doi.drop 15
  else if (str "https://dx.doi.org/").isPrefixOf doi then doi.drop 19
  else if (str "http://dx.doi.org/").isPrefixOf doi then doi.drop 18
  else doi

/-- Lines 52-54 of `doi-to-bibtex-mcp.py`: remove the label when
`doi.lower().startswith("doi:")`. -/
def stripDoiLabel (doi : List Char) : List Char :=
  if (str "doi:").isPrefixOf (doi.map Char.toLower) then doi.drop 4 else doi

/-- `normalize_doi` of `doi-to-bibtex-mcp.py` (lines 38-56): strip, remove
one URL form, remove one `doi:` label, strip again. -/
def normalize_doi (doi : List Char) : List Char :=
  trim (stripDoiLabel (stripUrl (trim doi)))

/-- The request constructed by `fetch_bibtex` (lines 59-66): target URL
from the fixed resolver base, BibTeX accept header, redirects followed,
30-unit timeout. -/
def fetchRequest (doi : List Char) : HttpRequest :=
  ⟨str "GET", str "https://doi.org/" ++ normalize_doi doi,
    str "application/x-bibtex", true, 30⟩

/-- `fetch_bibtex` of `doi-to-bibtex-mcp.py` (lines 58-80), as a function
of the outcome of its single GET.  `raise_for_status` raises for every
status outside 2xx; the handlers turn 404, 406, other statuses and
transport exceptions into the four `ValueError` messages of the code. -/
def fetch_bibtex (doi : List Char) (net : HttpOutcome) : FetchResult :=
  match net with
  | .response status body =>
    if 200 ≤ status ∧ status < 300 then .ok body
    else if status = 404 then
      .error (str "DOI not found: " ++ normalize_doi doi)
    else if status = 406 then
      .error (str "BibTeX format not available for DOI: " ++ normalize_doi doi)
    else
      .error (str "HTTP error " ++ Nat.toDigits 10 status ++ str ": " ++ body)
  | .transport msg => .error (str "Failed to fetch BibTeX: " ++ msg)

/-- The static descriptor of `handle_list_tools` (lines 18-36); the
free-text description is abbreviated, the schema requires `doi`. -/
def handle_list_tools : List Tool :=
  [⟨str "doi_to_bibtex", str "Convert a DOI to BibTeX format", [str "doi"]⟩]

/-- `handle_call_tool` of `doi-to-bibtex-mcp.py` (lines 82-109): tool-name
guard, argument guard (`not arguments or "doi" not in arguments`), then
the fetch wrapped so that every fetch failure becomes in-band text. -/
def handle_call_tool (name : List Char) (arguments : Option Args)
    (net : HttpOutcome) : CallResult :=
  if name ≠ str "doi_to_bibtex" then .raised (str "Unknown tool: " ++ name)
  else if arguments.getD [] = ([] : Args) ∨
      hasKey (arguments.getD []) (str "doi") = false then
    .raised (str "Missing required argument: doi")
  else
    match fetch_bibtex (getArg (arguments.getD []) (str "doi")) net with
    | .ok b => .content [⟨str "text", b⟩]
    | .error m => .content [⟨str "text", str "Error: " ++ m⟩]

end DoiToBibtex

namespace ServerHttp

/-- Lines 56-64 of `server-http.py`: the elif chain removing one URL form,
textually identical to the stdio variant. -/
def stripUrl (doi : List Char) : List Char :=
  if (str "https://doi.org/").isPrefixOf doi then doi.drop 16
  else if (str "http://doi.org/").isPrefixOf doi then doi.drop 15
  else if (str "https://dx.doi.org/").isPrefixOf doi then doi.drop 19
  else if (str "http://dx.doi.org/").isPrefixOf doi then doi.drop 18
  else doi

/-- Lines 66-68 of `server-http.py`: remove the `doi:` label when the
lowercased remainder starts with it. -/
def stripDoiLabel (doi : List Char) : List Char :=
  if (str "doi:").isPrefixOf (doi.map Char.toLower) then doi.drop 4 else doi

/-- `normalize_doi` of `server-http.py` (lines 52-70). -/
def normalize_doi (doi : List Char) : List Char :=
  trim (stripDoiLabel (stripUrl (trim doi)))

/-- The request constructed by `fetch_bibtex` of `server-http.py`
(lines 73-80). -/
def fetchRequest (doi : List Char) : HttpRequest :=
  ⟨str "GET", str "https://doi.org/" ++ normalize_doi doi,
    str "application/x-bibtex", true, 30⟩

/-- `fetch_bibtex` of `server-http.py` (lines 72-94). -/
def fetch_bibtex (doi : List Char) (net : HttpOutcome) : FetchResult :=
  match net with
  | .response status body =>
    if 200 ≤ status ∧ status < 300 then .ok body
    else if status = 404 then
      .error (str "DOI not found: " ++ normalize_doi doi)
    else if status = 406 then
      .error (str "BibTeX format not available for DOI: " ++ normalize_doi doi)
    else
      .error (str "HTTP error " ++ Nat.toDigits 10 status ++ str ": " ++ body)
  | .transport msg => .error (str "Failed to fetch BibTeX: " ++ msg)

/-- The static descriptor of `handle_list_tools` (lines 32-50); the
free-text description is abbreviated, the schema requires `doi`. -/
def handle_list_tools : List Tool :=
  [⟨str "doi_to_bibtex", str "Convert a DOI to BibTeX format", [str "doi"]⟩]

/-- `handle_call_tool` of `server-http.py` (lines 96-123), textually
identical to the stdio variant. -/
def handle_call_tool (name : List Char) (arguments : Option Args)
    (net : HttpOutcome) : CallResult :=
  if name ≠ str "doi_to_bibtex" then .raised (str "Unknown tool: " ++ name)
  else if arguments.getD [] = ([] : Args) ∨
      hasKey (arguments.getD []) (str "doi") = false then
    .raised (str "Missing required argument: doi")
  else
    match fetch_bibtex (getArg (arguments.getD []) (str "doi")) net with
    | .ok b => .content [⟨str "text", b⟩]
    | .error m => .content [⟨str "text", str "Error: " ++ m⟩]

/-- A parsed JSON-RPC message body, seen through the `data.get` and
`params.get` reads of `handle_message`: `id`, `method`, `params.name`
and `params.arguments`, each absent when the corresponding key is. -/
structure MessageBody where
  id : Option (List Char)
  msgMethod : Option (List Char)
  paramsName : Option (List Char)
  paramsArguments : Option Args
deriving DecidableEq

/-- An incoming HTTP request, seen through what the handlers read of it:
the `Authorization` header, and the result of `await request.json()`
(`none` models a body on which JSON parsing raises). -/
structure Request where
  authHeader : Option (List Char)
  body : Option MessageBody
deriving DecidableEq

/-- `check_auth` of `server-http.py` (lines 125-136): everything passes
with an empty `AUTH_TOKEN`; otherwise the `Authorization` header must be
`Bearer ` plus a token equal to `AUTH_TOKEN` (`auth_header[7:]`). -/
def check_auth (authToken : List Char) (request : Request) : Bool :=
  if authToken = [] then true
  else if (str "Bearer ").isPrefixOf (request.authHeader.getD []) then
    (request.authHeader.getD []).drop 7 == authToken
  else false

/-- `handle_health` of `server-http.py` (lines 139-141): a constant JSON
payload, with no authentication check. -/
def handle_health (_request : Request) : List (List Char × List Char) :=
  [(str "status", str "ok"), (str "service", str "doi-to-bibtex")]

/-- Result of the SSE endpoint: the 401 payload or the event stream. -/
inductive SseResult where
  | unauthorized
  | eventStream
deriving DecidableEq

/-- `handle_sse` of `server-http.py` (lines 143-159): 401 when the auth
check fails, otherwise the event stream. -/
def handle_sse (authToken : List Char) (request : Request) : SseResult :=
  if check_auth authToken request = false then .unauthorized
  else .eventStream

/-- The JSON payload of a `handle_message` response. -/
inductive RpcPayload where
  | unauthorizedBody
  | toolsResult (id : Option (List Char)) (tools : List Tool)
  | callResult (id : Option (List Char)) (items : List TextContent)
  | rpcError (id : Option (List Char)) (code : Int) (message : List Char)
deriving DecidableEq

/-- What `handle_message` does with a request: an HTTP response with a
status code and payload, or an exception escaping the handler. -/
inductive HandlerOutcome where
  | response (httpStatus : Nat) (payload : RpcPayload)
  | unhandled (excMsg : List Char)
deriving DecidableEq

/-- Python renders `None` as the string `None` in f-strings, and
`None != "doi_to_bibtex"` holds, so passing `params.get("name")` into
`handle_call_tool` is observationally the same as passing `"None"`. -/
def pyStr (o : Option (List Char)) : List Char := o.getD (str "None")

/-- `handle_message` of `server-http.py` (lines 161-219).  After the auth
gate, the body runs inside `try`: a body whose JSON parsing raises jumps
to the `except` block, whose `data.get("id", None)` reads the local
`data` that was never assigned, so an `UnboundLocalError` escapes the
handler.  A parsed body dispatches on `data.get("method", "")`; a raise
from `handle_call_tool` is caught and returned as a -32603 error with
HTTP status 500; any other method yields a -32601 error. -/
def handle_message (authToken : List Char) (request : Request)
    (net : HttpOutcome) : HandlerOutcome :=
  if check_auth authToken request = false then
    .response 401 .unauthorizedBody
  else
    match request.body with
    | none => .unhandled (str "UnboundLocalError: data")
    | some data =>
      let m := data.msgMethod.getD []
      if m = str "tools/list" then
        .response 200 (.toolsResult data.id handle_list_tools)
      else if m = str "tools/call" then
        match handle_call_tool (pyStr data.paramsName)
            (some (data.paramsArguments.getD [])) net with
        | .content items => .response 200 (.callResult data.id items)
        | .raised msg => .response 500 (.rpcError data.id (-32603) msg)
      else
        .response 200 (.rpcError data.id (-32601) (str "Method not found: " ++ m))

end ServerHttp

/-!
Predicates over inputs of the normalizer, phrased with the same checks the
code performs.
-/

/-- None of the four URL forms of the elif chain matches `s`. -/
def noUrlForm (s : List Char) : Prop :=
  (str "https://doi.org/").isPrefixOf s = false ∧
  (str "http://doi.org/").isPrefixOf s = false ∧
  (str "https://dx.doi.org/").isPrefixOf s = false ∧
  (str "http://dx.doi.org/").isPrefixOf s = false

/-- A bare identifier: no URL form and no case-insensitive `doi:` label. -/
def bareDoi (s : List Char) : Prop :=
  noUrlForm s ∧ (str "doi:").isPrefixOf (s.map Char.toLower) = false

/-- A recognized prefix variant: one of the four URL forms exactly, or a
four-character block lowercasing to `doi:`. -/
def recognizedPfx (p : List Char) : Prop :=
  p = str "https://doi.org/" ∨ p = str "http://doi.org/" ∨
  p = str "https://dx.doi.org/" ∨ p = str "http://dx.doi.org/" ∨
  p.map Char.toLower = str "doi:"

instance (s : List Char) : Decidable (noUrlForm s) := by
  unfold noUrlForm
  infer_instance

instance (s : List Char) : Decidable (bareDoi s) := by
  unfold bareDoi
  infer_instance

instance (p : List Char) : Decidable (recognizedPfx p) := by
  unfold recognizedPfx
  infer_instance

theorem isPrefixOf_self_append (l t : List Char) :
    l.isPrefixOf (l ++ t) = true := by
  induction l with
  | nil => simp [List.isPrefixOf]
  | cons a l ih => simp [List.isPrefixOf, ih]

theorem toLower_of_whitespace {c : Char} (h : c.isWhitespace = true) :
    c.toLower = c := by
  have h' : c = ' ' ∨ c = '\t' ∨ c = '\x0d' ∨ c = '\n' := by
    simpa [Char.isWhitespace, or_assoc] using h
  rcases h' with h' | h' | h' | h' <;> subst h' <;> decide

theorem not_whitespace_of_toLower {c d : Char} (h : c.toLower = d)
    (hd : d.isWhitespace = false) : c.isWhitespace = false := by
  by_contra hc
  have hc' : c.isWhitespace = true := by simpa using hc
  rw [toLower_of_whitespace hc'] at h
  rw [h] at hc'
  rw [hc'] at hd
  exact absurd hd (by simp)

namespace DoiToBibtex

theorem stripUrl_of_noUrlForm {s : List Char} (h : noUrlForm s) :
    stripUrl s = s := by
  obtain ⟨h1, h2, h3, h4⟩ := h
  simp [stripUrl, h1, h2, h3, h4]

theorem stripDoiLabel_of_no_label {s : List Char}
    (h : (str "doi:").isPrefixOf (s.map Char.toLower) = false) :
    stripDoiLabel s = s := by
  simp [stripDoiLabel, h]

/-- On an already canonical identifier every stage of the normalizer is
the identity. -/
theorem normalize_of_bare {s : List Char} (hs : trim s = s) (hb : bareDoi s) :
    normalize_doi s = s := by
  unfold normalize_doi
  rw [hs, stripUrl_of_noUrlForm hb.1, stripDoiLabel_of_no_label hb.2, hs]

theorem stripUrl_https (s : List Char) :
    stripUrl (str "https://doi.org/" ++ s) = s := by
  have h : (str "https://doi.org/").isPrefixOf (str "https://doi.org/" ++ s)
      = true := isPrefixOf_self_append _ s
  simp only [stripUrl, h, if_true]
  rfl

theorem stripUrl_http (s : List Char) :
    stripUrl (str "http://doi.org/" ++ s) = s := by
  have h1 : (str "https://doi.org/").isPrefixOf (str "http://doi.org/" ++ s)
      = false := rfl
  have h2 : (str "http://doi.org/").isPrefixOf (str "http://doi.org/" ++ s)
      = true := isPrefixOf_self_append _ s
  simp only [stripUrl, h1, h2, if_true, Bool.false_eq_true, if_false]
  rfl

theorem stripUrl_https_dx (s : List Char) :
    stripUrl (str "https://dx.doi.org/" ++ s) = s := by
  have h1 : (str "https://doi.org/").isPrefixOf (str "https://dx.doi.org/" ++ s)
      = false := rfl
  have h2 : (str "http://doi.org/").isPrefixOf (str "https://dx.doi.org/" ++ s)
      = false := rfl
  have h3 : (str "https://dx.doi.org/").isPrefixOf (str "https://dx.doi.org/" ++ s)
      = true := isPrefixOf_self_append _ s
  simp only [stripUrl, h1, h2, h3, if_true, Bool.false_eq_true, if_false]
  rfl

theorem stripUrl_http_dx (s : List Char) :
    stripUrl (str "http://dx.doi.org/" ++ s) = s := by
  have h1 : (str "https://doi.org/").isPrefixOf (str "http://dx.doi.org/" ++ s)
      = false := rfl
  have h2 : (str "http://doi.org/").isPrefixOf (str "http://dx.doi.org/" ++ s)
      = false := rfl
  have h3 : (str "https://dx.doi.org/").isPrefixOf (str "http://dx.doi.org/" ++ s)
      = false := rfl
  have h4 : (str "http://dx.doi.org/").isPrefixOf (str "http://dx.doi.org/" ++ s)
      = true := isPrefixOf_self_append _ s
  simp only [stripUrl, h1, h2, h3, h4, if_true, Bool.false_eq_true, if_false]
  rfl

end DoiToBibtex

/-- A four-character block lowercasing to `doi:` is exactly a case
variant of the label. -/
theorem doiVariant_shape {q : List Char} (hq : q.map Char.toLower = str "doi:") :
    ∃ c1 c2 c3 c4, q = [c1, c2, c3, c4] ∧ c1.toLower = 'd' ∧
      c2.toLower = 'o' ∧ c3.toLower = 'i' ∧ c4.toLower = ':' := by
  cases q with
  | nil => exact absurd hq (by decide)
  | cons c1 q =>
    cases q with
    | nil => exact absurd hq (by simp [str])
    | cons c2 q =>
      cases q with
      | nil => exact absurd hq (by simp [str])
      | cons c3 q =>
        cases q with
        | nil => exact absurd hq (by simp [str])
        | cons c4 q =>
          cases q with
          | nil =>
            refine ⟨c1, c2, c3, c4, rfl, ?_⟩
            simpa [str] using hq
          | cons c5 q => exact absurd hq (by simp [str])

theorem isPrefixOf_cons_cons (a b : Char) (l₁ l₂ : List Char) :
    (a :: l₁).isPrefixOf (b :: l₂) = (a == b && l₁.isPrefixOf l₂) := rfl

/-- None of the URL forms (all starting with `h`) matches a block whose
first character lowers to `d`. -/
theorem noUrlForm_of_head_d {c1 : Char} (t : List Char)
    (h : c1.toLower = 'd') : noUrlForm (c1 :: t) := by
  have hne : ('h' == c1) = false := by
    apply beq_eq_false_iff_ne.mpr
    intro he
    rw [← he] at h
    exact absurd h (by decide)
  refine ⟨?_, ?_, ?_, ?_⟩
  · rw [show str "https://doi.org/" = 'h' :: str "ttps://doi.org/" from rfl]
    rw [isPrefixOf_cons_cons, hne, Bool.false_and]
  · rw [show str "http://doi.org/" = 'h' :: str "ttp://doi.org/" from rfl]
    rw [isPrefixOf_cons_cons, hne, Bool.false_and]
  · rw [show str "https://dx.doi.org/" = 'h' :: str "ttps://dx.doi.org/" from rfl]
    rw [isPrefixOf_cons_cons, hne, Bool.false_and]
  · rw [show str "http://dx.doi.org/" = 'h' :: str "ttp://dx.doi.org/" from rfl]
    rw [isPrefixOf_cons_cons, hne, Bool.false_and]

namespace DoiToBibtex

/-- Core of the prefix-invariance property: a recognized prefix variant
glued onto a trimmed bare identifier normalizes to that identifier. -/
theorem normalize_variant_append {p s : List Char} (hp : recognizedPfx p)
    (hs : trim s = s) (hb : bareDoi s) : normalize_doi (p ++ s) = s := by
  rcases hp with hp | hp | hp | hp | hp
  · subst hp
    unfold normalize_doi
    rw [trim_append_of (p := str "https://doi.org/") s (by decide) (by decide)
      (by decide) hs]
    rw [stripUrl_https, stripDoiLabel_of_no_label hb.2, hs]
  · subst hp
    unfold normalize_doi
    rw [trim_append_of (p := str "http://doi.org/") s (by decide) (by decide)
      (by decide) hs]
    rw [stripUrl_http, stripDoiLabel_of_no_label hb.2, hs]
  · subst hp
    unfold normalize_doi
    rw [trim_append_of (p := str "https://dx.doi.org/") s (by decide) (by decide)
      (by decide) hs]
    rw [stripUrl_https_dx, stripDoiLabel_of_no_label hb.2, hs]
  · subst hp
    unfold normalize_doi
    rw [trim_append_of (p := str "http://dx.doi.org/") s (by decide) (by decide)
      (by decide) hs]
    rw [stripUrl_http_dx, stripDoiLabel_of_no_label hb.2, hs]
  · obtain ⟨c1, c2, c3, c4, hq, h1, h2, h3, h4⟩ := doiVariant_shape hp
    subst hq
    have hws1 : c1.isWhitespace = false := not_whitespace_of_toLower h1 (by decide)
    have hws4 : c4.isWhitespace = false := not_whitespace_of_toLower h4 (by decide)
    unfold normalize_doi
    have ht1 : ltrim [c1, c2, c3, c4] = [c1, c2, c3, c4] :=
      dropWhile_cons_of_neg _ hws1
    have ht2 : List.dropWhile Char.isWhitespace [c1, c2, c3, c4].reverse
        = [c1, c2, c3, c4].reverse := by
      rw [show [c1, c2, c3, c4].reverse = [c4, c3, c2, c1] by simp]
      exact dropWhile_cons_of_neg _ hws4
    rw [trim_append_of (p := [c1, c2, c3, c4]) s ht1 ht2 (by simp) hs]
    rw [show [c1, c2, c3, c4] ++ s = c1 :: ([c2, c3, c4] ++ s) from rfl]
    rw [stripUrl_of_noUrlForm (noUrlForm_of_head_d ([c2, c3, c4] ++ s) h1)]
    have hc : (str "doi:").isPrefixOf
        ((c1 :: ([c2, c3, c4] ++ s)).map Char.toLower) = true := by
      rw [show (c1 :: ([c2, c3, c4] ++ s)) = [c1, c2, c3, c4] ++ s from rfl]
      rw [List.map_append, hp]
      exact isPrefixOf_self_append _ _
    simp only [stripDoiLabel, hc, if_true]
    rw [show (c1 :: ([c2, c3, c4] ++ s)).drop 4 = s from rfl, hs]

end DoiToBibtex

theorem eq_append_drop_of_isPrefixOf :
    ∀ (p l : List Char), p.isPrefixOf l = true → l = p ++ l.drop p.length := by
  intro p
  induction p with
  | nil =>
    intro l _
    simp
  | cons a as ih =>
    intro l h
    cases l with
    | nil => simp [List.isPrefixOf] at h
    | cons b bs =>
      rw [isPrefixOf_cons_cons] at h
      have hab : a = b := by
        have := (Bool.and_eq_true _ _).mp h
        exact eq_of_beq this.1
      have htl : as.isPrefixOf bs = true := ((Bool.and_eq_true _ _).mp h).2
      subst hab
      rw [List.length_cons, List.drop_succ_cons, List.cons_append]
      rw [← ih bs htl]

/-!
Claim theorems.
-/

/-- C1: for every trimmed bare identifier `s` and every recognized prefix
variant `p` (one of the four URL forms, or a case variant of the `doi:`
label), `normalize_doi` applied to `p ++ s` with arbitrary surrounding
whitespace equals `normalize_doi s`; in particular `"doi:10.1/ABC "` and
`"https://dx.doi.org/10.1/ABC"` both normalize to `"10.1/ABC"`, and the
fetch for the former targets `https://doi.org/10.1/ABC`. -/
theorem doi_prefix_invariance (ws₁ ws₂ p s : List Char)
    (hw1 : wsOnly ws₁) (hw2 : wsOnly ws₂) (hp : recognizedPfx p)
    (hs : trim s = s) (hb : bareDoi s) :
    DoiToBibtex.normalize_doi (ws₁ ++ p ++ s ++ ws₂) =
      DoiToBibtex.normalize_doi s ∧
    DoiToBibtex.normalize_doi (str "doi:10.1/ABC ") = str "10.1/ABC" ∧
    DoiToBibtex.normalize_doi (str "https://dx.doi.org/10.1/ABC") =
      str "10.1/ABC" ∧
    (DoiToBibtex.fetchRequest (str "doi:10.1/ABC ")).url =
      str "https://doi.org/10.1/ABC" := by
  refine ⟨?_, by decide, by decide, by decide⟩
  have hassoc : ws₁ ++ p ++ s ++ ws₂ = ws₁ ++ (p ++ s) ++ ws₂ := by
    simp [List.append_assoc]
  have key : DoiToBibtex.normalize_doi (ws₁ ++ (p ++ s) ++ ws₂) =
      DoiToBibtex.normalize_doi (p ++ s) := by
    unfold DoiToBibtex.normalize_doi
    rw [trim_ws_both (p ++ s) hw1 hw2]
  rw [hassoc, key, DoiToBibtex.normalize_variant_append hp hs hb,
    DoiToBibtex.normalize_of_bare hs hb]

/-- Witness for C1 at a mixed-case label with surrounding whitespace. -/
theorem doi_prefix_invariance_witness :
    DoiToBibtex.normalize_doi
        (str " " ++ str "dOi:" ++ str "10.1/ABC" ++ str "\t") =
      DoiToBibtex.normalize_doi (str "10.1/ABC") :=
  (doi_prefix_invariance (str " ") (str "\t") (str "dOi:") (str "10.1/ABC")
    (by decide) (by decide) (by decide) (by decide) (by decide)).1

/-- C4 counterexample: on input `doi:doi:https://doi.org/10.1/x` the
normalizer strips only the outer label, so its output still carries a
`doi:` label (case-insensitively at its head), a URL scheme and the
resolver host. -/
theorem normalize_output_keeps_schemes :
    DoiToBibtex.normalize_doi (str "doi:doi:https://doi.org/10.1/x") =
      str "doi:https://doi.org/10.1/x" ∧
    (str "doi:").isPrefixOf
      ((DoiToBibtex.normalize_doi
        (str "doi:doi:https://doi.org/10.1/x")).map Char.toLower) = true ∧
    DoiToBibtex.normalize_doi (str "doi:doi:https://doi.org/10.1/x") =
      str "doi:" ++ str "https://doi.org/" ++ str "10.1/x" := by decide

/-- C4 amended: the output of `normalize_doi` (in both variants) never has
leading or trailing whitespace; the no-scheme/no-host/no-label part of the
claimed invariant fails on inputs with nested prefixes. -/
theorem normalize_output_trimmed (s : List Char) :
    trim (DoiToBibtex.normalize_doi s) = DoiToBibtex.normalize_doi s ∧
    trim (ServerHttp.normalize_doi s) = ServerHttp.normalize_doi s := by
  constructor
  · unfold DoiToBibtex.normalize_doi
    exact trim_idem _
  · unfold ServerHttp.normalize_doi
    exact trim_idem _

/-- C5 counterexample: after the URL prefix matched, the `doi:` check IS
still performed on the remainder, so `https://doi.org/doi:10.1/x`
normalizes to `10.1/x` and not to `doi:10.1/x`. -/
theorem doi_label_checked_after_url :
    DoiToBibtex.normalize_doi (str "https://doi.org/doi:10.1/x") =
      str "10.1/x" ∧
    DoiToBibtex.normalize_doi (str "https://doi.org/doi:10.1/x") ≠
      str "doi:10.1/x" := by decide

/-- C5 amended: the `doi:` stage runs unconditionally after the URL stage:
a case variant of the label glued to a trimmed remainder is stripped
(no URL form matched), and when a URL form matches, the remainder goes
through exactly the same remaining stages as a URL-free input. -/
theorem doi_label_stage_unconditional (q r u : List Char)
    (hq : q.map Char.toLower = str "doi:") (hr : trim r = r)
    (hu : u = str "https://doi.org/" ∨ u = str "http://doi.org/" ∨
      u = str "https://dx.doi.org/" ∨ u = str "http://dx.doi.org/")
    (hnu : noUrlForm r) :
    DoiToBibtex.normalize_doi (q ++ r) = r ∧
    DoiToBibtex.normalize_doi (u ++ r) = DoiToBibtex.normalize_doi r := by
  constructor
  · obtain ⟨c1, c2, c3, c4, hsh, h1, h2, h3, h4⟩ := doiVariant_shape hq
    subst hsh
    have hws1 : c1.isWhitespace = false :=
      not_whitespace_of_toLower h1 (by decide)
    have hws4 : c4.isWhitespace = false :=
      not_whitespace_of_toLower h4 (by decide)
    unfold DoiToBibtex.normalize_doi
    have ht1 : ltrim [c1, c2, c3, c4] = [c1, c2, c3, c4] :=
      dropWhile_cons_of_neg _ hws1
    have ht2 : List.dropWhile Char.isWhitespace [c1, c2, c3, c4].reverse
        = [c1, c2, c3, c4].reverse := by
      rw [show [c1, c2, c3, c4].reverse = [c4, c3, c2, c1] by simp]
      exact dropWhile_cons_of_neg _ hws4
    rw [trim_append_of (p := [c1, c2, c3, c4]) r ht1 ht2 (by simp) hr]
    rw [show [c1, c2, c3, c4] ++ r = c1 :: ([c2, c3, c4] ++ r) from rfl]
    rw [DoiToBibtex.stripUrl_of_noUrlForm
      (noUrlForm_of_head_d ([c2, c3, c4] ++ r) h1)]
    have hc : (str "doi:").isPrefixOf
        ((c1 :: ([c2, c3, c4] ++ r)).map Char.toLower) = true := by
      rw [show (c1 :: ([c2, c3, c4] ++ r)) = [c1, c2, c3, c4] ++ r from rfl]
      rw [List.map_append, hq]
      exact isPrefixOf_self_append _ _
    simp only [DoiToBibtex.stripDoiLabel, hc, if_true]
    rw [show (c1 :: ([c2, c3, c4] ++ r)).drop 4 = r from rfl, hr]
  · rcases hu with hu | hu | hu | hu
    · subst hu
      unfold DoiToBibtex.normalize_doi
      rw [trim_append_of (p := str "https://doi.org/") r (by decide)
        (by decide) (by decide) hr]
      rw [DoiToBibtex.stripUrl_https, hr,
        DoiToBibtex.stripUrl_of_noUrlForm hnu]
    · subst hu
      unfold DoiToBibtex.normalize_doi
      rw [trim_append_of (p := str "http://doi.org/") r (by decide)
        (by decide) (by decide) hr]
      rw [DoiToBibtex.stripUrl_http, hr,
        DoiToBibtex.stripUrl_of_noUrlForm hnu]
    · subst hu
      unfold DoiToBibtex.normalize_doi
      rw [trim_append_of (p := str "https://dx.doi.org/") r (by decide)
        (by decide) (by decide) hr]
      rw [DoiToBibtex.stripUrl_https_dx, hr,
        DoiToBibtex.stripUrl_of_noUrlForm hnu]
    · subst hu
      unfold DoiToBibtex.normalize_doi
      rw [trim_append_of (p := str "http://dx.doi.org/") r (by decide)
        (by decide) (by decide) hr]
      rw [DoiToBibtex.stripUrl_http_dx, hr,
        DoiToBibtex.stripUrl_of_noUrlForm hnu]

/-- Witness for the amended C5 at a concrete label variant and URL form. -/
theorem doi_label_stage_unconditional_witness :
    DoiToBibtex.normalize_doi (str "DOI:" ++ str "doi:10.1/x") =
      str "doi:10.1/x" ∧
    DoiToBibtex.normalize_doi (str "https://doi.org/" ++ str "doi:10.1/x") =
      DoiToBibtex.normalize_doi (str "doi:10.1/x") :=
  doi_label_stage_unconditional (str "DOI:") (str "doi:10.1/x")
    (str "https://doi.org/") (by decide) (by decide) (Or.inl rfl) (by decide)

/-- C7 counterexample: normalization is not idempotent — with a doubled
URL prefix the first pass leaves a string that a second pass strips
further. -/
theorem normalize_not_idempotent :
    DoiToBibtex.normalize_doi
        (DoiToBibtex.normalize_doi
          (str "https://doi.org/https://doi.org/10.1/x")) ≠
      DoiToBibtex.normalize_doi
        (str "https://doi.org/https://doi.org/10.1/x") := by decide

/-- C7 amended: on already-canonical DOIs (trimmed, carrying no recognized
prefix) `normalize_doi` is the identity, and hence idempotent there; full
idempotence over all strings fails (see the counterexample). -/
theorem normalize_fixes_canonical (s : List Char)
    (hs : trim s = s) (hb : bareDoi s) :
    DoiToBibtex.normalize_doi s = s ∧
    DoiToBibtex.normalize_doi (DoiToBibtex.normalize_doi s) =
      DoiToBibtex.normalize_doi s := by
  have h := DoiToBibtex.normalize_of_bare hs hb
  refine ⟨h, ?_⟩
  rw [h]
  exact h

/-- Witness for the amended C7 at a canonical identifier. -/
theorem normalize_fixes_canonical_witness :
    DoiToBibtex.normalize_doi (str "10.1/ABC") = str "10.1/ABC" ∧
    DoiToBibtex.normalize_doi (DoiToBibtex.normalize_doi (str "10.1/ABC")) =
      DoiToBibtex.normalize_doi (str "10.1/ABC") :=
  normalize_fixes_canonical (str "10.1/ABC") (by decide) (by decide)

/-- C2: `fetch_bibtex` issues exactly one GET (the model consumes exactly
one `HttpOutcome`) against `https://doi.org/` plus the normalized DOI with
the BibTeX accept header, follows redirects, bounds the call at 30 time
units, and classifies the outcome: 2xx returns the body exactly, 404 and
406 raise the DOI-carrying messages, every other status raises the generic
HTTP error with status and body, and a transport failure raises the
fetch-failed error with the cause description.  No branch retries. -/
theorem fetch_bibtex_contract (doi body msg : List Char) (status : Nat) :
    (DoiToBibtex.fetchRequest doi).httpMethod = str "GET" ∧
    (DoiToBibtex.fetchRequest doi).url =
      str "https://doi.org/" ++ DoiToBibtex.normalize_doi doi ∧
    (DoiToBibtex.fetchRequest doi).acceptHeader = str "application/x-bibtex" ∧
    (DoiToBibtex.fetchRequest doi).followRedirects = true ∧
    (DoiToBibtex.fetchRequest doi).timeout = 30 ∧
    (200 ≤ status → status < 300 →
      DoiToBibtex.fetch_bibtex doi (.response status body) = .ok body) ∧
    DoiToBibtex.fetch_bibtex doi (.response 404 body) =
      .error (str "DOI not found: " ++ DoiToBibtex.normalize_doi doi) ∧
    DoiToBibtex.fetch_bibtex doi (.response 406 body) =
      .error (str "BibTeX format not available for DOI: " ++
        DoiToBibtex.normalize_doi doi) ∧
    (¬ (200 ≤ status ∧ status < 300) → status ≠ 404 → status ≠ 406 →
      DoiToBibtex.fetch_bibtex doi (.response status body) =
        .error (str "HTTP error " ++ Nat.toDigits 10 status ++ str ": " ++
          body)) ∧
    DoiToBibtex.fetch_bibtex doi (.transport msg) =
      .error (str "Failed to fetch BibTeX: " ++ msg) := by
  refine ⟨rfl, rfl, rfl, rfl, rfl, ?_, ?_, ?_, ?_, rfl⟩
  · intro hl hr
    simp [DoiToBibtex.fetch_bibtex, hl, hr]
  · simp [DoiToBibtex.fetch_bibtex]
  · simp [DoiToBibtex.fetch_bibtex]
  · intro h1 h2 h3
    simp [DoiToBibtex.fetch_bibtex, h1, h2, h3]

/-- Witness for C2 at a success and a generic-error status. -/
theorem fetch_bibtex_contract_witness :
    DoiToBibtex.fetch_bibtex (str "10.1/x")
        (.response 200 (str "@article")) = .ok (str "@article") ∧
    DoiToBibtex.fetch_bibtex (str "10.1/x") (.response 500 (str "oops")) =
      .error (str "HTTP error " ++ Nat.toDigits 10 500 ++ str ": " ++
        str "oops") := by
  constructor
  · exact (fetch_bibtex_contract (str "10.1/x") (str "@article") []
      200).2.2.2.2.2.1 (by decide) (by decide)
  · exact (fetch_bibtex_contract (str "10.1/x") (str "oops") []
      500).2.2.2.2.2.2.2.2.1 (by decide) (by decide) (by decide)

/-- C3: whenever the arguments carry the `doi` key and the fetch raises,
`handle_call_tool` (in both variants) swallows the failure and returns a
single text item whose text is `Error: ` plus the message, reported as a
nominally successful invocation (a `content` result, never `raised`). -/
theorem fetch_errors_in_band (name : List Char) (arguments : Option Args)
    (net : HttpOutcome) (m : List Char)
    (hname : name = str "doi_to_bibtex")
    (hkey : hasKey (arguments.getD []) (str "doi") = true)
    (hfail : DoiToBibtex.fetch_bibtex (getArg (arguments.getD [])
      (str "doi")) net = .error m) :
    DoiToBibtex.handle_call_tool name arguments net =
      .content [⟨str "text", str "Error: " ++ m⟩] ∧
    ServerHttp.handle_call_tool name arguments net =
      .content [⟨str "text", str "Error: " ++ m⟩] := by
  subst hname
  have hne : ¬ (arguments.getD [] = ([] : Args) ∨
      hasKey (arguments.getD []) (str "doi") = false) := by
    rintro (h | h)
    · rw [h] at hkey
      exact absurd hkey (by decide)
    · rw [h] at hkey
      exact absurd hkey (by decide)
  have hfail' : ServerHttp.fetch_bibtex (getArg (arguments.getD [])
      (str "doi")) net = .error m := hfail
  constructor
  · unfold DoiToBibtex.handle_call_tool
    rw [if_neg (by simp), if_neg hne, hfail]
  · unfold ServerHttp.handle_call_tool
    rw [if_neg (by simp), if_neg hne, hfail']

/-- Witness for C3 at a 404 on a present `doi` argument. -/
theorem fetch_errors_in_band_witness :
    DoiToBibtex.handle_call_tool (str "doi_to_bibtex")
        (some [(str "doi", str "10.1/x")]) (.response 404 []) =
      .content [⟨str "text", str "Error: " ++ str "DOI not found: 10.1/x"⟩] ∧
    ServerHttp.handle_call_tool (str "doi_to_bibtex")
        (some [(str "doi", str "10.1/x")]) (.response 404 []) =
      .content [⟨str "text", str "Error: " ++ str "DOI not found: 10.1/x"⟩] :=
  fetch_errors_in_band (str "doi_to_bibtex") (some [(str "doi", str "10.1/x")])
    (.response 404 []) (str "DOI not found: 10.1/x") rfl (by decide) (by decide)

/-- C8: the router raises `Unknown tool` for every other tool name, and
`Missing required argument: doi` when the mapping is absent, empty or
lacks the `doi` key; both guards return a fixed value for every network
outcome, so no normalization and no fetch takes place. -/
theorem router_rejects_bad_invocations (name : List Char)
    (arguments : Option Args) (net : HttpOutcome) :
    (name ≠ str "doi_to_bibtex" →
      DoiToBibtex.handle_call_tool name arguments net =
        .raised (str "Unknown tool: " ++ name)) ∧
    ((arguments = none ∨ arguments = some [] ∨
        hasKey (arguments.getD []) (str "doi") = false) →
      DoiToBibtex.handle_call_tool (str "doi_to_bibtex") arguments net =
        .raised (str "Missing required argument: doi")) := by
  constructor
  · intro hname
    unfold DoiToBibtex.handle_call_tool
    rw [if_pos hname]
  · intro hargs
    have hcond : arguments.getD [] = ([] : Args) ∨
        hasKey (arguments.getD []) (str "doi") = false := by
      rcases hargs with h | h | h
      · left
        rw [h]
        rfl
      · left
        rw [h]
        rfl
      · right
        exact h
    unfold DoiToBibtex.handle_call_tool
    rw [if_neg (by simp), if_pos hcond]

/-- Witness for C8: an unknown tool name is rejected even with a valid
`doi` argument present, and an empty mapping is rejected for the known
tool. -/
theorem router_rejects_bad_invocations_witness :
    DoiToBibtex.handle_call_tool (str "nonexistent_tool")
        (some [(str "doi", str "10.1/x")]) (.response 200 []) =
      .raised (str "Unknown tool: " ++ str "nonexistent_tool") ∧
    DoiToBibtex.handle_call_tool (str "doi_to_bibtex") (some [])
        (.response 200 []) =
      .raised (str "Missing required argument: doi") :=
  ⟨(router_rejects_bad_invocations (str "nonexistent_tool")
      (some [(str "doi", str "10.1/x")]) (.response 200 [])).1 (by decide),
   (router_rejects_bad_invocations (str "doi_to_bibtex") (some [])
      (.response 200 [])).2 (Or.inr (Or.inl rfl))⟩

/-- C9: the stdio variant and the HTTP variant embed the same core —
their normalizers agree on every input, and their fetchers issue the same
request and classify identically for identical inputs and identical
resolver outcomes. -/
theorem variants_extensionally_equal :
    (∀ s, DoiToBibtex.normalize_doi s = ServerHttp.normalize_doi s) ∧
    (∀ d, DoiToBibtex.fetchRequest d = ServerHttp.fetchRequest d) ∧
    (∀ d net, DoiToBibtex.fetch_bibtex d net = ServerHttp.fetch_bibtex d net) :=
  ⟨fun _ => rfl, fun _ => rfl, fun _ _ => rfl⟩

/-- C6 evaluation: with an empty token, a parsed request with an unknown
method yields the -32601 error and a raise inside `tools/call` is caught
as -32603 — but a request whose body fails JSON parsing makes the
`except` handler read the never-assigned local `data`, so an
`UnboundLocalError` escapes `handle_message` instead of the claimed
-32603 response. -/
theorem handle_message_dispatch_fact :
    ServerHttp.handle_message []
        ⟨none, some ⟨some (str "1"), some (str "bogus/method"), none, none⟩⟩
        (.response 200 []) =
      .response 200 (.rpcError (some (str "1")) (-32601)
        (str "Method not found: bogus/method")) ∧
    ServerHttp.handle_message []
        ⟨none, some ⟨none, some (str "tools/call"), none, none⟩⟩
        (.response 200 []) =
      .response 500 (.rpcError none (-32603) (str "Unknown tool: None")) ∧
    ServerHttp.handle_message [] ⟨none, none⟩ (.response 200 []) =
      .unhandled (str "UnboundLocalError: data") := by decide

/-- C10: with an empty `AUTH_TOKEN` every request passes `check_auth`;
with a non-empty token a request passes exactly when its `Authorization`
header is `Bearer ` followed by the token; `/sse` and `/message` answer
401 whenever the check fails; the health endpoint is a constant that
never consults the token. -/
theorem auth_gate_contract (authToken : List Char)
    (request : ServerHttp.Request) (net : HttpOutcome) :
    (authToken = [] → ServerHttp.check_auth authToken request = true) ∧
    (authToken ≠ [] → (ServerHttp.check_auth authToken request = true ↔
      request.authHeader.getD [] = str "Bearer " ++ authToken)) ∧
    (ServerHttp.check_auth authToken request = false →
      ServerHttp.handle_sse authToken request = .unauthorized ∧
      ServerHttp.handle_message authToken request net =
        .response 401 .unauthorizedBody) ∧
    ServerHttp.handle_health request =
      [(str "status", str "ok"), (str "service", str "doi-to-bibtex")] := by
  refine ⟨?_, ?_, ?_, rfl⟩
  · intro h
    unfold ServerHttp.check_auth
    rw [if_pos h]
  · intro h
    unfold ServerHttp.check_auth
    rw [if_neg h]
    constructor
    · intro hc
      by_cases hpre : (str "Bearer ").isPrefixOf (request.authHeader.getD [])
          = true
      · rw [if_pos hpre] at hc
        have hdrop : (request.authHeader.getD []).drop 7 = authToken :=
          eq_of_beq hc
        have hsplit := eq_append_drop_of_isPrefixOf _ _ hpre
        rw [show (str "Bearer ").length = 7 from rfl] at hsplit
        rw [hdrop] at hsplit
        exact hsplit
      · rw [if_neg hpre] at hc
        exact absurd hc (by simp)
    · intro heq
      rw [heq, if_pos (isPrefixOf_self_append (str "Bearer ") authToken)]
      rw [show (str "Bearer " ++ authToken).drop 7 = authToken from rfl]
      simp
  · intro h
    constructor
    · unfold ServerHttp.handle_sse
      rw [if_pos h]
    · unfold ServerHttp.handle_message
      rw [if_pos h]

/-- Witness for C10: a matching bearer token passes, a wrong one is
rejected with 401 on the SSE endpoint. -/
theorem auth_gate_contract_witness :
    ServerHttp.check_auth (str "sec") ⟨some (str "Bearer sec"), none⟩ = true ∧
    ServerHttp.handle_sse (str "sec") ⟨some (str "Bearer bad"), none⟩ =
      .unauthorized := by
  constructor
  · exact ((auth_gate_contract (str "sec") ⟨some (str "Bearer sec"), none⟩
      (.response 200 [])).2.1 (by decide)).mpr (by decide)
  · exact ((auth_gate_contract (str "sec") ⟨some (str "Bearer bad"), none⟩
      (.response 200 [])).2.2.1 (by decide)).1
